import Mathlib

/-!
Shallow embedding of `src/utils/retry.js` from the rx-player repository.

The file `retry.js` exports two functions built around an identical
error-handling block (the body of the `.catch` handler):

  retryWithBackoff(obs, options)          -- sequence variant
  retryableFuncWithBackoff(fn, options)   -- single-call variant

Both destructure `options` into `retryDelay`, `totalRetry`, `shouldRetry`,
`resetDelay`, `errorSelector`, `onRetry`, keep one mutable `retryCount`
variable in the scope of the outer call, optionally build a debounced
counter reset (`debounce(() => retryCount = 0, resetDelay)` when
`resetDelay > 0`), and on each failure run:

    const wantRetry = !shouldRetry || shouldRetry(error);
    if (!wantRetry || retryCount++ >= totalRetry) {
      if (errorSelector) { throw errorSelector(error, retryCount); }
      else { throw error; }
    }
    if (onRetry) { onRetry(error, retryCount); }
    const fuzzedDelay = getBackedoffDelay(retryDelay, retryCount);
    return timer(fuzzedDelay).mergeMap(() => {
      debounceRetryCount && debounceRetryCount();
      return source;   -- or: return doRetry(...args);
    });

The embedding below models this block as a pure function on the counter
(`catchBlock`), and the two variants as drivers that fold the block over a
list of attempt outcomes, threading the counter and recording the traces
(onRetry invocations, scheduled backoff delays, debounce touches).
`getBackedoffDelay` lives in `./backoff`, outside the given sources and
declared out of scope by the specification, so it is a parameter `b`.
-/

/-- The `options` record destructured at the top of both
`retryWithBackoff` and `retryableFuncWithBackoff`.  `shouldRetry`,
`errorSelector` and `onRetry` are optional in the source (tested for
truthiness before use); `onRetry` is only ever called for its side
effect, so the embedding keeps just its presence bit and records the
arguments it would receive in the run trace.  `resetDelay` is compared
with `> 0` in the source, so it is carried as an integer. -/
structure RetryOptions (ε : Type) where
  retryDelay : Nat
  totalRetry : Nat
  resetDelay : Int
  shouldRetry : Option (ε → Bool) := none
  errorSelector : Option (ε → Nat → ε) := none
  hasOnRetry : Bool := false

/-- `const wantRetry = !shouldRetry || shouldRetry(error);` — when no
`shouldRetry` predicate is configured the operation is always considered
retryable. -/
def wantRetry {ε : Type} (cfg : RetryOptions ε) (e : ε) : Bool :=
  match cfg.shouldRetry with
  | none => true
  | some p => p e

/-- `errorSelector ? errorSelector(error, count) : error` — the error
thrown on the give-up path. -/
def applySelector {ε : Type} (cfg : RetryOptions ε) (e : ε) (count : Nat) : ε :=
  match cfg.errorSelector with
  | none => e
  | some f => f e count

/-- Result of one execution of the shared catch handler: either the
failure is surfaced (`throw` of the possibly transformed error) or a
retry is scheduled after a backoff delay.  Both carry the value of the
mutable `retryCount` variable after the block ran. -/
inductive CatchResult (ε : Type) where
  | giveUp (surfaced : ε) (newCount : Nat)
  | retryAfter (delay : Nat) (newCount : Nat)
deriving Repr, DecidableEq

/-- The catch handler shared verbatim by `retryWithBackoff` and
`retryableFuncWithBackoff`, as a function of the current `retryCount`.
JavaScript `||` short-circuits, so `retryCount++` is evaluated only when
`wantRetry` holds; `retryCount++` compares the old value and increments,
so on the exhausted-budget branch `errorSelector` and on the retry
branch `onRetry`/`getBackedoffDelay` all see the incremented value. -/
def catchBlock {ε : Type} (cfg : RetryOptions ε) (b : Nat → Nat → Nat)
    (retryCount : Nat) (e : ε) : CatchResult ε :=
  if !(wantRetry cfg e) then
    .giveUp (applySelector cfg e retryCount) retryCount
  else if retryCount ≥ cfg.totalRetry then
    .giveUp (applySelector cfg e (retryCount + 1)) (retryCount + 1)
  else
    .retryAfter (b cfg.retryDelay (retryCount + 1)) (retryCount + 1)

/-- Outcome of one attempt of the wrapped single-result operation
(`fn(...args)` settling) : it either produces a value or fails. -/
inductive Outcome (α ε : Type) where
  | success (a : α)
  | failure (e : ε)
deriving Repr, DecidableEq

/-- Observable record of one run of the single-call variant:
`result` is `none` when the supplied outcome list ended while a retry
was still pending (the run is cut short, not cancelled), otherwise the
value propagated or the error surfaced; `attempts` counts invocations of
the wrapped function; `onRetryCalls` lists the `(error, retryCount)`
argument pairs passed to `onRetry`, in order; `delays` lists the
scheduled backoff delays, in order; `touches` counts executions of
`debounceRetryCount()`; `finalCount` is the value of the shared mutable
`retryCount` once the run is over. -/
structure FuncRun (α ε : Type) where
  result : Option (Outcome α ε)
  attempts : Nat
  onRetryCalls : List (ε × Nat)
  delays : List Nat
  touches : Nat
  finalCount : Nat
deriving Repr, DecidableEq

/-- `retryableFuncWithBackoff` run driver: the returned `doRetry`
invokes `fn(...args)`; on success the result propagates; on failure the
catch handler either throws (give-up) or schedules
`timer(fuzzedDelay).mergeMap(() => { debounceRetryCount &&
debounceRetryCount(); return doRetry(...args); })`, i.e. touches the
debounced reset (only when `resetDelay > 0`, otherwise
`debounceRetryCount` is `undefined`) and recurses.  The list argument
gives the outcome of each successive invocation of `fn`; `rc` is the
value of the closure variable `retryCount` when `doRetry` is entered,
which is 0 only for the first use of a given wrapper (the variable
belongs to the outer `retryableFuncWithBackoff` scope and persists). -/
def runFunc {α ε : Type} (cfg : RetryOptions ε) (b : Nat → Nat → Nat) :
    Nat → List (Outcome α ε) → FuncRun α ε
  | rc, [] => ⟨none, 0, [], [], 0, rc⟩
  | rc, .success a :: _ => ⟨some (.success a), 1, [], [], 0, rc⟩
  | rc, .failure e :: rest =>
    match catchBlock cfg b rc e with
    | .giveUp surfaced rcNew => ⟨some (.failure surfaced), 1, [], [], 0, rcNew⟩
    | .retryAfter d rcNew =>
      let r := runFunc cfg b rcNew rest
      ⟨r.result, r.attempts + 1,
       (if cfg.hasOnRetry then [(e, rcNew)] else []) ++ r.onRetryCalls,
       d :: r.delays,
       (if 0 < cfg.resetDelay then 1 else 0) + r.touches,
       r.finalCount⟩

/-- Successive independent invocations of the one function returned by a
single `retryableFuncWithBackoff(fn, options)` call.  In the source the
mutable `retryCount` is captured by the returned closure, so each later
invocation starts from the count the previous invocation left behind:
the driver threads `finalCount` into the next call's starting count. -/
def callsSequence {α ε : Type} (cfg : RetryOptions ε) (b : Nat → Nat → Nat) :
    Nat → List (List (Outcome α ε)) → List (FuncRun α ε)
  | _, [] => []
  | rc, c :: cs =>
    let r := runFunc cfg b rc c
    r :: callsSequence cfg b r.finalCount cs

/-- One attempt of the restartable producer wrapped by
`retryWithBackoff`: the values it emits, then how it ends — `none` for
completion, `some e` for an error handed to the catch handler. -/
structure SeqAttempt (α ε : Type) where
  emits : List α
  outcome : Option ε
deriving Repr, DecidableEq

/-- Observable record of one subscription to the observable returned by
`retryWithBackoff`; fields as in `FuncRun`, plus `emitted`: all values
forwarded to the subscriber (the `catch` operator only intercepts the
error channel, values flow through unchanged). -/
structure SeqRun (α ε : Type) where
  emitted : List α
  result : Option (Option ε)
  attempts : Nat
  onRetryCalls : List (ε × Nat)
  delays : List Nat
  touches : Nat
  finalCount : Nat
deriving Repr, DecidableEq

/-- State shared between the catch handler and the debounced counter
reset built in both variants by
`if (resetDelay > 0) { debounceRetryCount = debounce(() => retryCount = 0, resetDelay); }`:
the mutable `retryCount` together with the `setTimeout` handle held
inside `debounce`'s closure (`pending` is the absolute time at which the
currently scheduled reset callback will fire, `none` when no reset is
scheduled). -/
structure DebounceState where
  retryCount : Nat
  pending : Option Int
deriving Repr, DecidableEq

/-- Timer semantics: a scheduled `setTimeout(fn, delay)` callback whose
fire time has been reached runs before any later event is processed;
running it executes `() => retryCount = 0` and consumes the handle. -/
def fireIfDue (s : DebounceState) (t : Int) : DebounceState :=
  match s.pending with
  | none => s
  | some tf => if tf ≤ t then ⟨0, none⟩ else s

/-- An externally observable event in the life of one wrapper: a failure
of the wrapped operation handed to the catch handler, or the
`debounceRetryCount && debounceRetryCount()` call sites executing when a
backoff timer fires and the operation is re-established. -/
inductive RetryEvent (ε : Type) where
  | failureAt (e : ε)
  | touch
deriving Repr, DecidableEq

/-- One timestamped event processed against the shared state.  A `touch`
runs the function returned by `debounce`: when `resetDelay > 0` it
clears any previously scheduled reset and schedules a fresh one
`resetDelay` from now; when `resetDelay ≤ 0` no `debounceRetryCount` was
ever created, so the call site `debounceRetryCount && ...` does
nothing.  A failure runs the catch handler, updating `retryCount`. -/
def timedStep {ε : Type} (cfg : RetryOptions ε) (b : Nat → Nat → Nat)
    (s : DebounceState) (t : Int) (ev : RetryEvent ε) : DebounceState :=
  let s1 := fireIfDue s t
  match ev with
  | .touch =>
    if 0 < cfg.resetDelay then ⟨s1.retryCount, some (t + cfg.resetDelay)⟩ else s1
  | .failureAt e =>
    match catchBlock cfg b s1.retryCount e with
    | .giveUp _ rcNew => ⟨rcNew, s1.pending⟩
    | .retryAfter _ rcNew => ⟨rcNew, s1.pending⟩

/-- Fold of `timedStep` over a timestamped event list. -/
def timedRun {ε : Type} (cfg : RetryOptions ε) (b : Nat → Nat → Nat) :
    DebounceState → List (Int × RetryEvent ε) → DebounceState
  | s, [] => s
  | s, (t, ev) :: rest => timedRun cfg b (timedStep cfg b s t ev) rest

/-- `retryWithBackoff` run driver: on error the catch handler either
throws or returns `timer(fuzzedDelay).mergeMap(() => {
debounceRetryCount && debounceRetryCount(); return source; })`, i.e.
after the backoff timer fires it touches the debounced reset (only when
`resetDelay > 0`) and resubscribes to the source producer.  The list
argument gives the behaviour of each successive subscription of the
producer; `rc` is the value of `retryCount` (scoped to the single outer
`retryWithBackoff` call) when this subscription chain starts. -/
def runSeq {α ε : Type} (cfg : RetryOptions ε) (b : Nat → Nat → Nat) :
    Nat → List (SeqAttempt α ε) → SeqRun α ε
  | rc, [] => ⟨[], none, 0, [], [], 0, rc⟩
  | rc, att :: rest =>
    match att.outcome with
    | none => ⟨att.emits, some none, 1, [], [], 0, rc⟩
    | some e =>
      match catchBlock cfg b rc e with
      | .giveUp surfaced rcNew =>
        ⟨att.emits, some (some surfaced), 1, [], [], 0, rcNew⟩
      | .retryAfter d rcNew =>
        let r := runSeq cfg b rcNew rest
        ⟨att.emits ++ r.emitted, r.result, r.attempts + 1,
         (if cfg.hasOnRetry then [(e, rcNew)] else []) ++ r.onRetryCalls,
         d :: r.delays,
         (if 0 < cfg.resetDelay then 1 else 0) + r.touches,
         r.finalCount⟩

/-- Successive independent subscriptions to the one observable returned
by a single `retryWithBackoff(obs, options)` call.  As in the
single-call variant, `retryCount` is declared in the scope of the outer
`retryWithBackoff` call and captured by the `catch` handler, so each
later subscription starts from the count the previous subscription left
behind: the driver threads `finalCount` into the next subscription's
starting count. -/
def subsSequence {α ε : Type} (cfg : RetryOptions ε) (b : Nat → Nat → Nat) :
    Nat → List (List (SeqAttempt α ε)) → List (SeqRun α ε)
  | _, [] => []
  | rc, c :: cs =>
    let r := runSeq cfg b rc c
    r :: subsSequence cfg b r.finalCount cs

/-! ### Basic facts about the catch handler -/

theorem catchBlock_notWanted {ε : Type} (cfg : RetryOptions ε) (b : Nat → Nat → Nat)
    (rc : Nat) (e : ε) (h : wantRetry cfg e = false) :
    catchBlock cfg b rc e = .giveUp (applySelector cfg e rc) rc := by
  simp [catchBlock, h]

theorem catchBlock_exhausted {ε : Type} (cfg : RetryOptions ε) (b : Nat → Nat → Nat)
    (rc : Nat) (e : ε) (hw : wantRetry cfg e = true) (hge : cfg.totalRetry ≤ rc) :
    catchBlock cfg b rc e = .giveUp (applySelector cfg e (rc + 1)) (rc + 1) := by
  simp [catchBlock, hw, hge]

theorem catchBlock_retries {ε : Type} (cfg : RetryOptions ε) (b : Nat → Nat → Nat)
    (rc : Nat) (e : ε) (hw : wantRetry cfg e = true) (hlt : rc < cfg.totalRetry) :
    catchBlock cfg b rc e = .retryAfter (b cfg.retryDelay (rc + 1)) (rc + 1) := by
  simp [catchBlock, hw, Nat.not_le.mpr hlt, Nat.not_le_of_lt hlt]

/-! ### Run lemmas for the single-call variant -/

/-- An always-failing retryable operation: starting from counter `rc`
with `k` attempts of budget left, the run makes exactly `k + 1` attempts,
schedules `k` backoff delays with 1-based attempt numbers
`rc+1, …, rc+k`, notifies `onRetry` with exactly those counts, touches
the debounced reset once per retry when `resetDelay > 0`, and surfaces
the give-up error built from the incremented final counter. -/
theorem runFunc_allFail {α ε : Type} (cfg : RetryOptions ε) (b : Nat → Nat → Nat)
    (e : ε) (hw : wantRetry cfg e = true) :
    ∀ (k rc : Nat) (rest : List (Outcome α ε)), cfg.totalRetry = rc + k →
    runFunc cfg b rc (List.replicate (k + 1) (.failure e) ++ rest) =
      ⟨some (.failure (applySelector cfg e (cfg.totalRetry + 1))), k + 1,
       if cfg.hasOnRetry then (List.range' (rc + 1) k).map (fun n => (e, n)) else [],
       (List.range' (rc + 1) k).map (b cfg.retryDelay),
       if 0 < cfg.resetDelay then k else 0,
       cfg.totalRetry + 1⟩ := by
  intro k
  induction k with
  | zero =>
    intro rc rest hN
    simp only [List.replicate, List.cons_append, List.nil_append]
    rw [runFunc]
    rw [catchBlock_exhausted cfg b rc e hw (by omega)]
    simp [hN, List.range']
  | succ k ih =>
    intro rc rest hN
    have hcons : List.replicate (k + 1 + 1) (Outcome.failure e (α := α)) =
        .failure e :: List.replicate (k + 1) (.failure e) := rfl
    rw [hcons, List.cons_append, runFunc]
    rw [catchBlock_retries cfg b rc e hw (by omega)]
    dsimp only
    rw [ih (rc + 1) rest (by omega)]
    rw [List.range'_succ]
    cases hOR : cfg.hasOnRetry <;> by_cases hRD : (0 : Int) < cfg.resetDelay <;>
      simp_all [List.map_cons] <;> first | omega | (split_ifs <;> omega)

/-- An operation failing `j` times then succeeding, with enough budget:
`j + 1` attempts, delays and `onRetry` counts `rc+1, …, rc+j`, one touch
per retry when `resetDelay > 0`, success propagated, final counter
`rc + j`. -/
theorem runFunc_failThenSuccess {α ε : Type} (cfg : RetryOptions ε) (b : Nat → Nat → Nat)
    (e : ε) (a : α) (hw : wantRetry cfg e = true) :
    ∀ (j rc : Nat) (rest : List (Outcome α ε)), rc + j ≤ cfg.totalRetry →
    runFunc cfg b rc (List.replicate j (.failure e) ++ .success a :: rest) =
      ⟨some (.success a), j + 1,
       if cfg.hasOnRetry then (List.range' (rc + 1) j).map (fun n => (e, n)) else [],
       (List.range' (rc + 1) j).map (b cfg.retryDelay),
       if 0 < cfg.resetDelay then j else 0,
       rc + j⟩ := by
  intro j
  induction j with
  | zero =>
    intro rc rest hN
    simp only [List.replicate, List.nil_append]
    rw [runFunc]
    simp [List.range']
  | succ j ih =>
    intro rc rest hN
    have hcons : List.replicate (j + 1) (Outcome.failure e (α := α)) =
        .failure e :: List.replicate j (.failure e) := rfl
    rw [hcons, List.cons_append, runFunc]
    rw [catchBlock_retries cfg b rc e hw (by omega)]
    dsimp only
    rw [ih (rc + 1) rest (by omega)]
    rw [List.range'_succ]
    cases hOR : cfg.hasOnRetry <;> by_cases hRD : (0 : Int) < cfg.resetDelay <;>
      simp_all [List.map_cons] <;> first | omega | (split_ifs <;> omega)

/-! ### Run lemmas for the sequence variant -/

/-- Sequence analogue of `runFunc_allFail`: every subscription of the
producer emits some values then errors with `e`; all emitted values are
forwarded, and the retry bookkeeping matches the single-call variant. -/
theorem runSeq_allFail {α ε : Type} (cfg : RetryOptions ε) (b : Nat → Nat → Nat)
    (e : ε) (hw : wantRetry cfg e = true) :
    ∀ (k rc : Nat) (vss : List (List α)) (rest : List (SeqAttempt α ε)),
    vss.length = k + 1 → cfg.totalRetry = rc + k →
    runSeq cfg b rc ((vss.map fun vs => ⟨vs, some e⟩) ++ rest) =
      ⟨vss.flatten, some (some (applySelector cfg e (cfg.totalRetry + 1))), k + 1,
       if cfg.hasOnRetry then (List.range' (rc + 1) k).map (fun n => (e, n)) else [],
       (List.range' (rc + 1) k).map (b cfg.retryDelay),
       if 0 < cfg.resetDelay then k else 0,
       cfg.totalRetry + 1⟩ := by
  intro k
  induction k with
  | zero =>
    intro rc vss rest hlen hN
    match vss, hlen with
    | [vs], _ =>
      simp only [List.map_cons, List.map_nil, List.cons_append, List.nil_append]
      rw [runSeq]
      dsimp only
      rw [catchBlock_exhausted cfg b rc e hw (by omega)]
      simp [hN, List.range']
  | succ k ih =>
    intro rc vss rest hlen hN
    match vss with
    | vs :: vss1 =>
      have hlen1 : vss1.length = k + 1 := by simpa using hlen
      simp only [List.map_cons, List.cons_append]
      rw [runSeq]
      dsimp only
      rw [catchBlock_retries cfg b rc e hw (by omega)]
      dsimp only
      rw [ih (rc + 1) vss1 rest hlen1 (by omega)]
      rw [List.range'_succ]
      cases hOR : cfg.hasOnRetry <;> by_cases hRD : (0 : Int) < cfg.resetDelay <;>
        simp_all [List.map_cons, List.flatten] <;> first | omega | (split_ifs <;> omega)

/-- Sequence analogue of `runFunc_failThenSuccess`: `j` failing
subscriptions then one that completes; one debounce touch per retry when
`resetDelay > 0`, none otherwise, independently of the values emitted. -/
theorem runSeq_failThenComplete {α ε : Type} (cfg : RetryOptions ε) (b : Nat → Nat → Nat)
    (e : ε) (hw : wantRetry cfg e = true) :
    ∀ (j rc : Nat) (vss : List (List α)) (vlast : List α) (rest : List (SeqAttempt α ε)),
    vss.length = j → rc + j ≤ cfg.totalRetry →
    runSeq cfg b rc ((vss.map fun vs => ⟨vs, some e⟩) ++ ⟨vlast, none⟩ :: rest) =
      ⟨vss.flatten ++ vlast, some none, j + 1,
       if cfg.hasOnRetry then (List.range' (rc + 1) j).map (fun n => (e, n)) else [],
       (List.range' (rc + 1) j).map (b cfg.retryDelay),
       if 0 < cfg.resetDelay then j else 0,
       rc + j⟩ := by
  intro j
  induction j with
  | zero =>
    intro rc vss vlast rest hlen hN
    match vss, hlen with
    | [], _ =>
      simp only [List.map_nil, List.nil_append]
      rw [runSeq]
      simp [List.range']
  | succ j ih =>
    intro rc vss vlast rest hlen hN
    match vss with
    | vs :: vss1 =>
      have hlen1 : vss1.length = j := by simpa using hlen
      simp only [List.map_cons, List.cons_append]
      rw [runSeq]
      dsimp only
      rw [catchBlock_retries cfg b rc e hw (by omega)]
      dsimp only
      rw [ih (rc + 1) vss1 vlast rest hlen1 (by omega)]
      rw [List.range'_succ]
      cases hOR : cfg.hasOnRetry <;> by_cases hRD : (0 : Int) < cfg.resetDelay <;>
        simp_all [List.map_cons, List.flatten] <;> first | omega | (split_ifs <;> omega)

/-- A failure rejected by `shouldRetry` is surfaced at once: one
attempt, no delay scheduled, no `onRetry`, no touch, counter untouched
(the short-circuited `||` never evaluates `retryCount++`). -/
theorem runFunc_notWanted {α ε : Type} (cfg : RetryOptions ε) (b : Nat → Nat → Nat)
    (rc : Nat) (e : ε) (rest : List (Outcome α ε)) (h : wantRetry cfg e = false) :
    runFunc cfg b rc (.failure e :: rest) =
      ⟨some (.failure (applySelector cfg e rc)), 1, [], [], 0, rc⟩ := by
  rw [runFunc, catchBlock_notWanted cfg b rc e h]

/-- Sequence analogue of `runFunc_notWanted`. -/
theorem runSeq_notWanted {α ε : Type} (cfg : RetryOptions ε) (b : Nat → Nat → Nat)
    (rc : Nat) (e : ε) (vs : List α) (rest : List (SeqAttempt α ε))
    (h : wantRetry cfg e = false) :
    runSeq cfg b rc (⟨vs, some e⟩ :: rest) =
      ⟨vs, some (some (applySelector cfg e rc)), 1, [], [], 0, rc⟩ := by
  rw [runSeq]
  dsimp only
  rw [catchBlock_notWanted cfg b rc e h]

/-- Running `j` retryable failures within budget is a pure prefix: the
remainder runs from counter `rc + j`, with `j` attempts, delays,
`onRetry` notifications and (when `resetDelay > 0`) touches prepended. -/
theorem runFunc_failPrefix {α ε : Type} (cfg : RetryOptions ε) (b : Nat → Nat → Nat)
    (e : ε) (hw : wantRetry cfg e = true) :
    ∀ (j rc : Nat) (rest : List (Outcome α ε)), rc + j ≤ cfg.totalRetry →
    runFunc cfg b rc (List.replicate j (.failure e) ++ rest) =
      ⟨(runFunc cfg b (rc + j) rest).result,
       (runFunc cfg b (rc + j) rest).attempts + j,
       (if cfg.hasOnRetry then (List.range' (rc + 1) j).map (fun n => (e, n)) else [])
         ++ (runFunc cfg b (rc + j) rest).onRetryCalls,
       (List.range' (rc + 1) j).map (b cfg.retryDelay) ++ (runFunc cfg b (rc + j) rest).delays,
       (if 0 < cfg.resetDelay then j else 0) + (runFunc cfg b (rc + j) rest).touches,
       (runFunc cfg b (rc + j) rest).finalCount⟩ := by
  intro j
  induction j with
  | zero =>
    intro rc rest hN
    simp
  | succ j ih =>
    intro rc rest hN
    have hcons : List.replicate (j + 1) (Outcome.failure e (α := α)) =
        .failure e :: List.replicate j (.failure e) := rfl
    rw [hcons, List.cons_append, runFunc]
    rw [catchBlock_retries cfg b rc e hw (by omega)]
    dsimp only
    rw [ih (rc + 1) rest (by omega)]
    rw [List.range'_succ]
    have harith : rc + 1 + j = rc + (j + 1) := by omega
    rw [harith]
    cases hOR : cfg.hasOnRetry <;> by_cases hRD : (0 : Int) < cfg.resetDelay <;>
      simp_all [List.map_cons] <;> first | omega | (split_ifs <;> omega)

/-- Sequence analogue of `runFunc_failPrefix`. -/
theorem runSeq_failPrefix {α ε : Type} (cfg : RetryOptions ε) (b : Nat → Nat → Nat)
    (e : ε) (hw : wantRetry cfg e = true) :
    ∀ (j rc : Nat) (vss : List (List α)) (rest : List (SeqAttempt α ε)),
    vss.length = j → rc + j ≤ cfg.totalRetry →
    runSeq cfg b rc ((vss.map fun vs => ⟨vs, some e⟩) ++ rest) =
      ⟨vss.flatten ++ (runSeq cfg b (rc + j) rest).emitted,
       (runSeq cfg b (rc + j) rest).result,
       (runSeq cfg b (rc + j) rest).attempts + j,
       (if cfg.hasOnRetry then (List.range' (rc + 1) j).map (fun n => (e, n)) else [])
         ++ (runSeq cfg b (rc + j) rest).onRetryCalls,
       (List.range' (rc + 1) j).map (b cfg.retryDelay) ++ (runSeq cfg b (rc + j) rest).delays,
       (if 0 < cfg.resetDelay then j else 0) + (runSeq cfg b (rc + j) rest).touches,
       (runSeq cfg b (rc + j) rest).finalCount⟩ := by
  intro j
  induction j with
  | zero =>
    intro rc vss rest hlen hN
    match vss, hlen with
    | [], _ => simp
  | succ j ih =>
    intro rc vss rest hlen hN
    match vss with
    | vs :: vss1 =>
      have hlen1 : vss1.length = j := by simpa using hlen
      simp only [List.map_cons, List.cons_append]
      rw [runSeq]
      dsimp only
      rw [catchBlock_retries cfg b rc e hw (by omega)]
      dsimp only
      rw [ih (rc + 1) vss1 rest hlen1 (by omega)]
      rw [List.range'_succ]
      have harith : rc + 1 + j = rc + (j + 1) := by omega
      rw [harith]
      cases hOR : cfg.hasOnRetry <;> by_cases hRD : (0 : Int) < cfg.resetDelay <;>
        simp_all [List.map_cons, List.flatten] <;> first | omega | (split_ifs <;> omega)

/-! ### The debounced counter reset -/

/-- The catch handler has exactly three behaviours, and the counter it
leaves behind never decreases. -/
theorem catchBlock_shape {ε : Type} (cfg : RetryOptions ε) (b : Nat → Nat → Nat)
    (rc : Nat) (e : ε) :
    catchBlock cfg b rc e = .giveUp (applySelector cfg e rc) rc ∨
    catchBlock cfg b rc e = .giveUp (applySelector cfg e (rc + 1)) (rc + 1) ∨
    catchBlock cfg b rc e = .retryAfter (b cfg.retryDelay (rc + 1)) (rc + 1) := by
  unfold catchBlock
  split_ifs <;> simp

/-- With `resetDelay ≤ 0` no `debounceRetryCount` is created, so a touch
is inert: no reset is ever scheduled and the counter never shrinks. -/
theorem timedStep_noReset {ε : Type} (cfg : RetryOptions ε) (b : Nat → Nat → Nat)
    (hRD : cfg.resetDelay ≤ 0) (s : DebounceState) (t : Int) (ev : RetryEvent ε)
    (hp : s.pending = none) :
    (timedStep cfg b s t ev).pending = none ∧
    s.retryCount ≤ (timedStep cfg b s t ev).retryCount := by
  have hfire : fireIfDue s t = s := by simp [fireIfDue, hp]
  have hneg : ¬ (0 : Int) < cfg.resetDelay := by omega
  cases ev with
  | touch => simp [timedStep, hfire, hneg, hp]
  | failureAt e =>
    rcases catchBlock_shape cfg b s.retryCount e with h | h | h <;>
      simp [timedStep, hfire, h, hp]

/-- Fold of `timedStep_noReset` over any event list. -/
theorem timedRun_noReset {ε : Type} (cfg : RetryOptions ε) (b : Nat → Nat → Nat)
    (hRD : cfg.resetDelay ≤ 0) :
    ∀ (evs : List (Int × RetryEvent ε)) (s : DebounceState), s.pending = none →
    (timedRun cfg b s evs).pending = none ∧
    s.retryCount ≤ (timedRun cfg b s evs).retryCount := by
  intro evs
  induction evs with
  | nil =>
    intro s hp
    rw [timedRun]
    exact ⟨hp, Nat.le_refl _⟩
  | cons te rest ih =>
    intro s hp
    obtain ⟨t, ev⟩ := te
    rw [timedRun]
    obtain ⟨hp1, hle1⟩ := timedStep_noReset cfg b hRD s t ev hp
    obtain ⟨hp2, hle2⟩ := ih (timedStep cfg b s t ev) hp1
    exact ⟨hp2, Nat.le_trans hle1 hle2⟩

/-- With `resetDelay > 0`: a touch followed by a quiet window longer
than `resetDelay` lets the scheduled reset fire, so the next failure
finds the counter at 0 and — budget permitting — becomes retry number 1,
whatever count the state had accumulated before. -/
theorem timedRun_quietReset {ε : Type} (cfg : RetryOptions ε) (b : Nat → Nat → Nat)
    (s : DebounceState) (e : ε) (t1 t2 : Int)
    (hRD : 0 < cfg.resetDelay) (hq : t1 + cfg.resetDelay ≤ t2)
    (hw : wantRetry cfg e = true) (hN : 0 < cfg.totalRetry) (hp : s.pending = none) :
    timedRun cfg b s [(t1, .touch), (t2, .failureAt e)] =
      ⟨1, none⟩ ∧
    catchBlock cfg b 0 e = .retryAfter (b cfg.retryDelay 1) 1 := by
  have hfire1 : fireIfDue s t1 = s := by simp [fireIfDue, hp]
  have hstep1 : timedStep cfg b s t1 .touch =
      ⟨s.retryCount, some (t1 + cfg.resetDelay)⟩ := by
    simp [timedStep, hfire1, hRD]
  have hfire2 : fireIfDue ⟨s.retryCount, some (t1 + cfg.resetDelay)⟩ t2 =
      ⟨0, none⟩ := by
    simp [fireIfDue, hq]
  have hcb := catchBlock_retries cfg b 0 e hw hN
  constructor
  · rw [timedRun, hstep1, timedRun, timedRun]
    simp [timedStep, hfire2, hcb]
  · exact hcb

/-! ### The claims -/

/-- Claim C1: for `totalRetry = N` and a wrapped operation that always
fails with a retryable error, both `retryWithBackoff` and
`retryableFuncWithBackoff` perform exactly `N` retries — `N + 1`
attempts and `N` scheduled backoff delays, with no `N + 1`-th retry even
when further outcomes would be available — and then surface the give-up
error. -/
theorem claimC1 {α ε : Type} (cfg : RetryOptions ε) (b : Nat → Nat → Nat) (e : ε)
    (hw : wantRetry cfg e = true)
    (rest : List (Outcome α ε)) (vss : List (List α)) (restS : List (SeqAttempt α ε))
    (hlen : vss.length = cfg.totalRetry + 1) :
    (runFunc cfg b 0 (List.replicate (cfg.totalRetry + 1) (.failure e) ++ rest)).attempts
        = cfg.totalRetry + 1 ∧
    (runFunc cfg b 0 (List.replicate (cfg.totalRetry + 1) (.failure e) ++ rest)).delays.length
        = cfg.totalRetry ∧
    (runFunc cfg b 0 (List.replicate (cfg.totalRetry + 1) (.failure e) ++ rest)).result
        = some (.failure (applySelector cfg e (cfg.totalRetry + 1))) ∧
    (runSeq cfg b 0 ((vss.map fun vs => ⟨vs, some e⟩) ++ restS)).attempts
        = cfg.totalRetry + 1 ∧
    (runSeq cfg b 0 ((vss.map fun vs => ⟨vs, some e⟩) ++ restS)).delays.length
        = cfg.totalRetry ∧
    (runSeq cfg b 0 ((vss.map fun vs => ⟨vs, some e⟩) ++ restS)).result
        = some (some (applySelector cfg e (cfg.totalRetry + 1))) := by
  rw [runFunc_allFail cfg b e hw cfg.totalRetry 0 rest (by omega),
      runSeq_allFail cfg b e hw cfg.totalRetry 0 vss restS hlen (by omega)]
  simp

/-- Concrete instance of `claimC1`: three always-failing attempts with
`totalRetry = 2` in both variants. -/
theorem claimC1_witness :
    (runFunc (⟨100, 2, 0, none, none, true⟩ : RetryOptions Nat) (fun d n => d * n) 0
        (List.replicate 3 (.failure 9) ++ [Outcome.failure 9 (α := Nat)])).attempts = 3 ∧
    (runFunc (⟨100, 2, 0, none, none, true⟩ : RetryOptions Nat) (fun d n => d * n) 0
        (List.replicate 3 (.failure 9) ++ [Outcome.failure 9 (α := Nat)])).delays.length = 2 ∧
    (runFunc (⟨100, 2, 0, none, none, true⟩ : RetryOptions Nat) (fun d n => d * n) 0
        (List.replicate 3 (.failure 9) ++ [Outcome.failure 9 (α := Nat)])).result
        = some (.failure 9) ∧
    (runSeq (⟨100, 2, 0, none, none, true⟩ : RetryOptions Nat) (fun d n => d * n) 0
        (([[1], [], [2, 3]].map fun vs => ⟨vs, some 9⟩) ++ [])).attempts = 3 ∧
    (runSeq (⟨100, 2, 0, none, none, true⟩ : RetryOptions Nat) (fun d n => d * n) 0
        (([[1], [], [2, 3]].map fun vs => ⟨vs, some 9⟩) ++ [])).delays.length = 2 ∧
    (runSeq (⟨100, 2, 0, none, none, true⟩ : RetryOptions Nat) (fun d n => d * n) 0
        (([[1], [], [2, 3]].map fun vs => ⟨vs, some 9⟩) ++ [])).result
        = some (some 9) :=
  claimC1 (⟨100, 2, 0, none, none, true⟩ : RetryOptions Nat) (fun d n => d * n) 9
    rfl [Outcome.failure 9] [[1], [], [2, 3]] [] rfl

/-- Claim C2 is false of the code: `retryCount` is declared in the scope
of the outer `retryableFuncWithBackoff` call and captured by the
returned closure, so two independent invocations of that closure share
it.  With `totalRetry = 1`, a first call that fails once and then
succeeds leaves the counter at 1; an independent second call then gives
up on its very first failure (no delay scheduled), although the same
failure in a fresh call would have been retried. -/
theorem claimC2_counterexample :
    callsSequence (⟨100, 1, 0, none, none, false⟩ : RetryOptions Nat) (fun d n => d * n) 0
        [[.failure 7, .success 42], [.failure 7]] =
      [⟨some (.success 42), 2, [], [100], 0, 1⟩,
       ⟨some (.failure 7), 1, [], [], 0, 2⟩] ∧
    runFunc (⟨100, 1, 0, none, none, false⟩ : RetryOptions Nat) (fun d n => d * n) 0
        [Outcome.failure 7 (α := Nat)] =
      ⟨none, 1, [], [100], 0, 1⟩ := by
  constructor
  · rfl
  · rfl

/-- Claim C2 amended: the attempt counter belongs to the closure created
by one `retryableFuncWithBackoff` (or `retryWithBackoff`) call, not to
each invocation of the wrapper: a later independent invocation of the
returned function — and likewise a later independent subscription to the
returned observable — starts from the count the earlier one left behind
(`finalCount` threading), so after a first invocation/subscription that
consumed `j` retries before succeeding, an always-failing second one
gets only `totalRetry - j` retries before the give-up error — not a full
fresh budget. -/
theorem claimC2_amended {α ε : Type} (cfg : RetryOptions ε) (b : Nat → Nat → Nat)
    (e : ε) (a : α) (hw : wantRetry cfg e = true)
    (j m : Nat) (hj : j ≤ cfg.totalRetry)
    (vss : List (List α)) (hlenv : vss.length = j) (vlast : List α)
    (wss : List (List α)) (hlenw : wss.length = cfg.totalRetry - j + 1)
    (restS : List (SeqAttempt α ε)) :
    callsSequence cfg b 0
        [List.replicate j (.failure e) ++ [.success a],
         List.replicate (cfg.totalRetry - j + 1 + m) (.failure e)] =
      [runFunc cfg b 0 (List.replicate j (.failure e) ++ [.success a]),
       runFunc cfg b j (List.replicate (cfg.totalRetry - j + 1 + m) (.failure e))] ∧
    (runFunc cfg b 0 (List.replicate j (.failure e) ++ [.success a])).finalCount = j ∧
    (runFunc cfg b j (List.replicate (cfg.totalRetry - j + 1 + m)
        (Outcome.failure e (α := α)))).delays.length = cfg.totalRetry - j ∧
    (runFunc cfg b j (List.replicate (cfg.totalRetry - j + 1 + m)
        (Outcome.failure e (α := α)))).result
        = some (.failure (applySelector cfg e (cfg.totalRetry + 1))) ∧
    subsSequence cfg b 0
        [(vss.map fun vs => ⟨vs, some e⟩) ++ ⟨vlast, none⟩ :: [],
         (wss.map fun ws => ⟨ws, some e⟩) ++ restS] =
      [runSeq cfg b 0 ((vss.map fun vs => ⟨vs, some e⟩) ++ ⟨vlast, none⟩ :: []),
       runSeq cfg b j ((wss.map fun ws => ⟨ws, some e⟩) ++ restS)] ∧
    (runSeq cfg b 0 ((vss.map fun vs => ⟨vs, some e⟩) ++ ⟨vlast, none⟩ :: [])).finalCount
        = j ∧
    (runSeq cfg b j ((wss.map fun ws => ⟨ws, some e⟩) ++ restS)).delays.length
        = cfg.totalRetry - j ∧
    (runSeq cfg b j ((wss.map fun ws => ⟨ws, some e⟩) ++ restS)).result
        = some (some (applySelector cfg e (cfg.totalRetry + 1))) := by
  have hsucc : runFunc cfg b 0 (List.replicate j (.failure e) ++ [.success a]) =
      (⟨some (.success a), j + 1,
        if cfg.hasOnRetry then (List.range' 1 j).map (fun n => (e, n)) else [],
        (List.range' 1 j).map (b cfg.retryDelay),
        if 0 < cfg.resetDelay then j else 0, 0 + j⟩ : FuncRun α ε) := by
    have := runFunc_failThenSuccess cfg b e a hw j 0 [] (by omega)
    simpa using this
  have hsplit : List.replicate (cfg.totalRetry - j + 1 + m) (Outcome.failure e (α := α)) =
      List.replicate (cfg.totalRetry - j + 1) (.failure e) ++
        List.replicate m (.failure e) := by
    rw [← List.replicate_add]
  have hfail := runFunc_allFail cfg b e hw (cfg.totalRetry - j) j
      (List.replicate m (Outcome.failure e (α := α))) (by omega)
  have hseq1 := runSeq_failThenComplete cfg b e hw j 0 vss vlast [] hlenv (by omega)
  have hseq2 := runSeq_allFail cfg b e hw (cfg.totalRetry - j) j wss restS hlenw (by omega)
  refine ⟨?_, ?_, ?_, ?_, ?_, ?_, ?_, ?_⟩
  · simp [callsSequence, hsucc]
  · simp [hsucc]
  · rw [hsplit, hfail]
    simp
  · rw [hsplit, hfail]
  · simp [subsSequence, hseq1]
  · simp [hseq1]
  · rw [hseq2]
    simp
  · rw [hseq2]

/-- Concrete instance of `claimC2_amended` with `totalRetry = 3` and a
first call that consumed two retries. -/
theorem claimC2_amended_witness :
    callsSequence (⟨100, 3, 0, none, none, false⟩ : RetryOptions Nat) (fun d n => d * n) 0
        [List.replicate 2 (.failure 7) ++ [.success 5],
         List.replicate 2 (.failure 7)] =
      [runFunc (⟨100, 3, 0, none, none, false⟩ : RetryOptions Nat) (fun d n => d * n) 0
          (List.replicate 2 (.failure 7) ++ [.success 5]),
       runFunc (⟨100, 3, 0, none, none, false⟩ : RetryOptions Nat) (fun d n => d * n) 2
          (List.replicate 2 (.failure 7))] ∧
    (runFunc (⟨100, 3, 0, none, none, false⟩ : RetryOptions Nat) (fun d n => d * n) 0
        (List.replicate 2 (.failure 7) ++ [.success 5])).finalCount = 2 ∧
    (runFunc (⟨100, 3, 0, none, none, false⟩ : RetryOptions Nat) (fun d n => d * n) 2
        (List.replicate 2 (Outcome.failure 7 (α := Nat)))).delays.length = 1 ∧
    (runFunc (⟨100, 3, 0, none, none, false⟩ : RetryOptions Nat) (fun d n => d * n) 2
        (List.replicate 2 (Outcome.failure 7 (α := Nat)))).result = some (.failure 7) ∧
    subsSequence (⟨100, 3, 0, none, none, false⟩ : RetryOptions Nat) (fun d n => d * n) 0
        [([[], [4]].map fun vs => ⟨vs, some 7⟩) ++ ⟨[9], none⟩ :: [],
         ([[1], []].map fun ws => ⟨ws, some 7⟩) ++ []] =
      [runSeq (⟨100, 3, 0, none, none, false⟩ : RetryOptions Nat) (fun d n => d * n) 0
          (([[], [4]].map fun vs => ⟨vs, some 7⟩) ++ ⟨[9], none⟩ :: []),
       runSeq (⟨100, 3, 0, none, none, false⟩ : RetryOptions Nat) (fun d n => d * n) 2
          (([[1], []].map fun ws => ⟨ws, some 7⟩) ++ [])] ∧
    (runSeq (⟨100, 3, 0, none, none, false⟩ : RetryOptions Nat) (fun d n => d * n) 0
        (([[], [4]].map fun vs => ⟨vs, some 7⟩) ++ ⟨[9], none⟩ :: [])).finalCount = 2 ∧
    (runSeq (⟨100, 3, 0, none, none, false⟩ : RetryOptions Nat) (fun d n => d * n) 2
        (([[1], []].map fun ws => ⟨ws, some 7⟩) ++ [])).delays.length = 1 ∧
    (runSeq (⟨100, 3, 0, none, none, false⟩ : RetryOptions Nat) (fun d n => d * n) 2
        (([[1], []].map fun ws => ⟨ws, some 7⟩) ++ [])).result = some (some 7) :=
  claimC2_amended (⟨100, 3, 0, none, none, false⟩ : RetryOptions Nat) (fun d n => d * n)
    7 5 rfl 2 0 (by decide) [[], [4]] rfl [9] [[1], []] rfl []

/-- Claim C3 is false of the code on the exhausted-budget path: with
`totalRetry = 0` and `errorSelector = fun e n => n`, the very first
failure (attempt count 0 at the time of that failure, zero retries
performed) surfaces `errorSelector(error, 1)`, not
`errorSelector(error, 0)`: `retryCount++` runs before the selector. -/
theorem claimC3_counterexample :
    (runFunc (⟨100, 0, 0, none, some (fun _ n => n), false⟩ : RetryOptions Nat)
        (fun d n => d * n) 0 [Outcome.failure 7 (α := Nat)]).result
        = some (.failure 1) ∧
    (runFunc (⟨100, 0, 0, none, some (fun _ n => n), false⟩ : RetryOptions Nat)
        (fun d n => d * n) 0 [Outcome.failure 7 (α := Nat)]).result
        ≠ some (.failure 0) := by
  constructor
  · rfl
  · decide

/-- Claim C3 amended: on give-up the surfaced error is
`errorSelector(error, c)` when a selector is configured and the original
error unchanged otherwise — where `c` is the count of retries already
performed when the give-up is due to `shouldRetry` returning false (the
short-circuited `retryCount++` leaves the counter untouched), and that
count plus one when it is due to an exhausted budget (the counter is
post-incremented before the selector is called). -/
theorem claimC3_amended {α ε : Type} (cfg : RetryOptions ε) (b : Nat → Nat → Nat)
    (e eBad : ε) (hw : wantRetry cfg e = true) (hb : wantRetry cfg eBad = false)
    (j : Nat) (hj : j ≤ cfg.totalRetry) (rest : List (Outcome α ε))
    (vss : List (List α)) (hlenv : vss.length = j) (vsBad : List α)
    (restS : List (SeqAttempt α ε)) :
    (runFunc cfg b 0 (List.replicate j (.failure e) ++ .failure eBad :: rest)).result
        = some (.failure (applySelector cfg eBad j)) ∧
    (runFunc cfg b 0 (List.replicate j (.failure e) ++ .failure eBad :: rest)).finalCount
        = j ∧
    (runFunc cfg b 0 (List.replicate (cfg.totalRetry + 1) (.failure e) ++ rest)).result
        = some (.failure (applySelector cfg e (cfg.totalRetry + 1))) ∧
    (runFunc cfg b 0 (List.replicate (cfg.totalRetry + 1) (.failure e) ++ rest)).finalCount
        = cfg.totalRetry + 1 ∧
    (runSeq cfg b 0 ((vss.map fun vs => ⟨vs, some e⟩) ++ ⟨vsBad, some eBad⟩ :: restS)).result
        = some (some (applySelector cfg eBad j)) ∧
    (cfg.errorSelector = none → ∀ x c, applySelector cfg x c = x) ∧
    (∀ f, cfg.errorSelector = some f → ∀ x c, applySelector cfg x c = f x c) := by
  have h1 := runFunc_failPrefix cfg b e hw j 0 (.failure eBad :: rest) (by omega)
  have h2 := runFunc_notWanted cfg b (0 + j) eBad rest hb
  have h3 := runFunc_allFail cfg b e hw cfg.totalRetry 0 rest (by omega)
  have h4 := runSeq_failPrefix cfg b e hw j 0 vss (⟨vsBad, some eBad⟩ :: restS)
      hlenv (by omega)
  have h5 := runSeq_notWanted cfg b (0 + j) eBad vsBad restS hb
  refine ⟨?_, ?_, ?_, ?_, ?_, ?_, ?_⟩
  · rw [h1, h2]
    simp
  · rw [h1, h2]
    simp
  · rw [h3]
  · rw [h3]
  · rw [h4, h5]
    simp
  · intro hnone x c
    simp [applySelector, hnone]
  · intro f hsome x c
    simp [applySelector, hsome]

/-- Concrete instance of `claimC3_amended`: `shouldRetry` accepts errors
below 10, the selector encodes the count it received, `totalRetry = 2`;
two retryable failures then a non-retryable one surface count 2, three
retryable failures surface count 3, and without a selector the error is
unchanged. -/
theorem claimC3_amended_witness :
    (runFunc (⟨100, 2, 0, some (fun x => decide (x < 10)),
        some (fun x n => x * 100 + n), false⟩ : RetryOptions Nat)
        (fun d n => d * n) 0
        [Outcome.failure 7 (α := Nat), .failure 7, .failure 99]).result
        = some (.failure 9902) ∧
    (runFunc (⟨100, 2, 0, some (fun x => decide (x < 10)),
        some (fun x n => x * 100 + n), false⟩ : RetryOptions Nat)
        (fun d n => d * n) 0
        [Outcome.failure 7 (α := Nat), .failure 7, .failure 7]).result
        = some (.failure 703) ∧
    applySelector (⟨100, 1, 0, some (fun x => decide (x < 10)), none, false⟩ :
        RetryOptions Nat) 42 5 = 42 :=
  ⟨(claimC3_amended (⟨100, 2, 0, some (fun x => decide (x < 10)),
        some (fun x n => x * 100 + n), false⟩ : RetryOptions Nat)
      (fun d n => d * n) 7 99 rfl rfl 2 (by decide)
      ([] : List (Outcome Nat Nat)) [[], []] rfl [] []).1,
   (claimC3_amended (⟨100, 2, 0, some (fun x => decide (x < 10)),
        some (fun x n => x * 100 + n), false⟩ : RetryOptions Nat)
      (fun d n => d * n) 7 99 rfl rfl 2 (by decide)
      ([] : List (Outcome Nat Nat)) [[], []] rfl [] []).2.2.1,
   (claimC3_amended (⟨100, 1, 0, some (fun x => decide (x < 10)), none, false⟩ :
        RetryOptions Nat)
      (fun d n => d * n) 7 99 rfl rfl 0 (by decide)
      ([] : List (Outcome Nat Nat)) [] rfl [] []).2.2.2.2.2.1 rfl 42 5⟩

/-- Claim C4: for an operation failing `j ≤ totalRetry` times before
succeeding (no reset in between), `onRetry` is invoked exactly once per
retry, in order, with the pairs `(error, 1) … (error, j)` — strictly
increasing counts — in both variants.  In the source the call
`onRetry(error, retryCount)` executes inside the catch handler before
`timer(fuzzedDelay)` is even constructed, so the `i`-th notification
precedes the `i`-th scheduled delay. -/
theorem claimC4 {α ε : Type} (cfg : RetryOptions ε) (b : Nat → Nat → Nat)
    (e : ε) (a : α) (hw : wantRetry cfg e = true) (hOR : cfg.hasOnRetry = true)
    (j : Nat) (hj : j ≤ cfg.totalRetry) (rest : List (Outcome α ε))
    (vss : List (List α)) (hlen : vss.length = j) (vlast : List α)
    (restS : List (SeqAttempt α ε)) :
    (runFunc cfg b 0 (List.replicate j (.failure e) ++ .success a :: rest)).onRetryCalls
        = (List.range' 1 j).map (fun n => (e, n)) ∧
    ((runFunc cfg b 0 (List.replicate j (.failure e) ++ .success a :: rest)).onRetryCalls).map
        Prod.snd = List.range' 1 j ∧
    (runFunc cfg b 0 (List.replicate j (.failure e) ++ .success a :: rest)).onRetryCalls.length
        = (runFunc cfg b 0 (List.replicate j (.failure e) ++ .success a :: rest)).delays.length ∧
    (runSeq cfg b 0 ((vss.map fun vs => ⟨vs, some e⟩) ++ ⟨vlast, none⟩ :: restS)).onRetryCalls
        = (List.range' 1 j).map (fun n => (e, n)) := by
  rw [runFunc_failThenSuccess cfg b e a hw j 0 rest (by omega),
      runSeq_failThenComplete cfg b e hw j 0 vss vlast restS hlen (by omega)]
  rw [hOR]
  simp [List.map_map, Function.comp]

/-- Concrete instance of `claimC4`: two failures then success with
`totalRetry = 2` yields notifications `(7, 1), (7, 2)`. -/
theorem claimC4_witness :
    (runFunc (⟨100, 2, 0, none, none, true⟩ : RetryOptions Nat) (fun d n => d * n) 0
        (List.replicate 2 (.failure 7) ++ .success 1 :: [])).onRetryCalls
        = (List.range' 1 2).map (fun n => (7, n)) ∧
    ((runFunc (⟨100, 2, 0, none, none, true⟩ : RetryOptions Nat) (fun d n => d * n) 0
        (List.replicate 2 (.failure 7) ++ .success 1 :: [])).onRetryCalls).map
        Prod.snd = List.range' 1 2 ∧
    (runFunc (⟨100, 2, 0, none, none, true⟩ : RetryOptions Nat) (fun d n => d * n) 0
        (List.replicate 2 (.failure 7) ++ .success 1 :: [])).onRetryCalls.length
        = (runFunc (⟨100, 2, 0, none, none, true⟩ : RetryOptions Nat) (fun d n => d * n) 0
        (List.replicate 2 (.failure 7) ++ .success 1 :: [])).delays.length ∧
    (runSeq (⟨100, 2, 0, none, none, true⟩ : RetryOptions Nat) (fun d n => d * n) 0
        (([[], [4]].map fun vs => ⟨vs, some 7⟩) ++ ⟨[9], none⟩ :: [])).onRetryCalls
        = (List.range' 1 2).map (fun n => (7, n)) :=
  claimC4 (⟨100, 2, 0, none, none, true⟩ : RetryOptions Nat) (fun d n => d * n)
    7 1 rfl rfl 2 (by decide) [] [[], [4]] rfl [9] []

/-- Claim C6: `shouldRetry` is consulted before the budget comparison —
a failure it rejects gives up at once with the counter untouched at any
count (the short-circuit skips `retryCount++`), and on the first failure
this means one attempt, no scheduled delay, no `onRetry`, no touch, the
counter still 0 and the original error (or selector output at count 0)
surfaced; when `shouldRetry` is absent every error counts as
retryable. -/
theorem claimC6 {α ε : Type} (cfg : RetryOptions ε) (b : Nat → Nat → Nat)
    (p : ε → Bool) (e : ε) (hs : cfg.shouldRetry = some p) (hpe : p e = false)
    (rest : List (Outcome α ε)) (vs : List α) (restS : List (SeqAttempt α ε)) :
    runFunc cfg b 0 (.failure e :: rest) =
      ⟨some (.failure (applySelector cfg e 0)), 1, [], [], 0, 0⟩ ∧
    runSeq cfg b 0 (⟨vs, some e⟩ :: restS) =
      ⟨vs, some (some (applySelector cfg e 0)), 1, [], [], 0, 0⟩ ∧
    (∀ rc, catchBlock cfg b rc e = .giveUp (applySelector cfg e rc) rc) ∧
    (∀ cfg2 : RetryOptions ε, cfg2.shouldRetry = none → ∀ x, wantRetry cfg2 x = true) := by
  have hwf : wantRetry cfg e = false := by simp [wantRetry, hs, hpe]
  refine ⟨?_, ?_, ?_, ?_⟩
  · exact runFunc_notWanted cfg b 0 e rest hwf
  · exact runSeq_notWanted cfg b 0 e vs restS hwf
  · intro rc
    exact catchBlock_notWanted cfg b rc e hwf
  · intro cfg2 hnone x
    simp [wantRetry, hnone]

/-- Concrete instance of `claimC6`: error 99 rejected by a predicate
accepting only errors below 10 is surfaced unchanged at once. -/
theorem claimC6_witness :
    runFunc (⟨100, 5, 0, some (fun x => decide (x < 10)), none, false⟩ : RetryOptions Nat)
        (fun d n => d * n) 0 (.failure 99 :: [Outcome.success 1 (α := Nat)]) =
      ⟨some (.failure 99), 1, [], [], 0, 0⟩ ∧
    runSeq (⟨100, 5, 0, some (fun x => decide (x < 10)), none, false⟩ : RetryOptions Nat)
        (fun d n => d * n) 0 (⟨[3], some 99⟩ :: ([] : List (SeqAttempt Nat Nat))) =
      ⟨[3], some (some 99), 1, [], [], 0, 0⟩ ∧
    catchBlock (⟨100, 5, 0, some (fun x => decide (x < 10)), none, false⟩ : RetryOptions Nat)
        (fun d n => d * n) 4 99 = .giveUp 99 4 ∧
    wantRetry (⟨1, 1, 0, none, none, false⟩ : RetryOptions Nat) 5 = true :=
  have h := claimC6 (⟨100, 5, 0, some (fun x => decide (x < 10)), none, false⟩ :
      RetryOptions Nat) (fun d n => d * n) (fun x => decide (x < 10)) 99 rfl rfl
      [Outcome.success 1 (α := Nat)] [3] []
  ⟨h.1, h.2.1, h.2.2.1 4, h.2.2.2 (⟨1, 1, 0, none, none, false⟩ : RetryOptions Nat) rfl 5⟩

/-- Claim C7: every scheduled backoff delay is
`getBackedoffDelay(retryDelay, k)` with 1-based attempt numbering — the
`k`-th retry of an invocation (no intervening reset) is scheduled with
attempt number `k`, the first retry with 1 — in both variants, whether
the run ends in success or in exhaustion. -/
theorem claimC7 {α ε : Type} (cfg : RetryOptions ε) (b : Nat → Nat → Nat)
    (e : ε) (a : α) (hw : wantRetry cfg e = true)
    (j : Nat) (hj : j ≤ cfg.totalRetry) (rest : List (Outcome α ε))
    (vss : List (List α)) (hlen : vss.length = j) (vlast : List α)
    (restS : List (SeqAttempt α ε)) :
    (runFunc cfg b 0 (List.replicate j (.failure e) ++ .success a :: rest)).delays
        = (List.range' 1 j).map (b cfg.retryDelay) ∧
    (runFunc cfg b 0 (List.replicate (cfg.totalRetry + 1) (.failure e) ++ rest)).delays
        = (List.range' 1 cfg.totalRetry).map (b cfg.retryDelay) ∧
    (runSeq cfg b 0 ((vss.map fun vs => ⟨vs, some e⟩) ++ ⟨vlast, none⟩ :: restS)).delays
        = (List.range' 1 j).map (b cfg.retryDelay) := by
  rw [runFunc_failThenSuccess cfg b e a hw j 0 rest (by omega),
      runFunc_allFail cfg b e hw cfg.totalRetry 0 rest (by omega),
      runSeq_failThenComplete cfg b e hw j 0 vss vlast restS hlen (by omega)]
  simp

/-- Concrete instance of `claimC7`: with `getBackedoffDelay = (· * ·)`
and `retryDelay = 100` the two retries are scheduled with delays
`100 * 1` and `100 * 2`. -/
theorem claimC7_witness :
    (runFunc (⟨100, 2, 0, none, none, false⟩ : RetryOptions Nat) (fun d n => d * n) 0
        (List.replicate 2 (.failure 7) ++ .success 1 :: [])).delays
        = (List.range' 1 2).map ((fun d n => d * n) 100) ∧
    (runFunc (⟨100, 2, 0, none, none, false⟩ : RetryOptions Nat) (fun d n => d * n) 0
        (List.replicate 3 (.failure 7) ++ ([] : List (Outcome Nat Nat)))).delays
        = (List.range' 1 2).map ((fun d n => d * n) 100) ∧
    (runSeq (⟨100, 2, 0, none, none, false⟩ : RetryOptions Nat) (fun d n => d * n) 0
        (([[], [4]].map fun vs => ⟨vs, some 7⟩) ++ ⟨[9], none⟩ :: [])).delays
        = (List.range' 1 2).map ((fun d n => d * n) 100) :=
  claimC7 (⟨100, 2, 0, none, none, false⟩ : RetryOptions Nat) (fun d n => d * n)
    7 1 rfl 2 (by decide) [] [[], [4]] rfl [9] []

/-- Claim C5: with `resetDelay ≤ 0` no debounced reset is ever created —
no reset is ever scheduled and the counter never decreases, whatever
events occur; with `resetDelay > 0`, a touch (re-establishment) followed
by a quiet window of at least `resetDelay` lets the scheduled reset fire
before the next failure, which therefore finds the counter at 0 and —
budget permitting — becomes retry number 1 with the full budget ahead of
it, regardless of the count accumulated before. -/
theorem claimC5 {ε : Type} (cfg : RetryOptions ε) (b : Nat → Nat → Nat) :
    (cfg.resetDelay ≤ 0 →
      ∀ (evs : List (Int × RetryEvent ε)) (s : DebounceState), s.pending = none →
      (timedRun cfg b s evs).pending = none ∧
      s.retryCount ≤ (timedRun cfg b s evs).retryCount) ∧
    (0 < cfg.resetDelay →
      ∀ (s : DebounceState) (e : ε) (t1 t2 : Int), t1 + cfg.resetDelay ≤ t2 →
      wantRetry cfg e = true → 0 < cfg.totalRetry → s.pending = none →
      timedRun cfg b s [(t1, .touch), (t2, .failureAt e)] = ⟨1, none⟩ ∧
      catchBlock cfg b 0 e = .retryAfter (b cfg.retryDelay 1) 1) := by
  constructor
  · intro hRD evs s hp
    exact timedRun_noReset cfg b hRD evs s hp
  · intro hRD s e t1 t2 hq hw hN hp
    exact timedRun_quietReset cfg b s e t1 t2 hRD hq hw hN hp

/-- Concrete instance of `claimC5`: with `resetDelay = 0` a failure
leaves no reset scheduled and the counter does not shrink; with
`resetDelay = 5`, a touch at time 10 followed by an unrelated failure at
time 100 yields counter 1 (retry number 1, full budget). -/
theorem claimC5_witness :
    ((timedRun (⟨100, 2, 0, none, none, false⟩ : RetryOptions Nat) (fun d n => d * n)
        ⟨3, none⟩ [((0 : Int), .failureAt 5)]).pending = none ∧
      3 ≤ (timedRun (⟨100, 2, 0, none, none, false⟩ : RetryOptions Nat) (fun d n => d * n)
        ⟨3, none⟩ [((0 : Int), .failureAt 5)]).retryCount) ∧
    (timedRun (⟨100, 2, 5, none, none, false⟩ : RetryOptions Nat) (fun d n => d * n)
        ⟨7, none⟩ [((10 : Int), .touch), ((100 : Int), .failureAt 4)] = ⟨1, none⟩ ∧
      catchBlock (⟨100, 2, 5, none, none, false⟩ : RetryOptions Nat) (fun d n => d * n)
        0 4 = .retryAfter 100 1) :=
  ⟨(claimC5 (⟨100, 2, 0, none, none, false⟩ : RetryOptions Nat) (fun d n => d * n)).1
      (by decide) [((0 : Int), .failureAt 5)] ⟨3, none⟩ rfl,
   (claimC5 (⟨100, 2, 5, none, none, false⟩ : RetryOptions Nat) (fun d n => d * n)).2
      (by decide) ⟨7, none⟩ 4 10 100 (by decide) rfl (by decide) rfl⟩

/-- Claim C8 is false of the code: the debounce touch happens exactly
when the backoff delay elapses, before the fresh attempt has produced or
succeeded at anything.  With `resetDelay = 5 > 0` and a producer that
never emits a value and errors on every subscription, no re-established
attempt ever produces or succeeds, yet `debounceRetryCount()` runs once
per retry — twice here. -/
theorem claimC8_counterexample :
    (runSeq (⟨100, 2, 5, none, none, false⟩ : RetryOptions Nat) (fun d n => d * n) 0
        [⟨([] : List Nat), some 7⟩, ⟨[], some 7⟩, ⟨[], some 7⟩]).touches = 2 ∧
    (runSeq (⟨100, 2, 5, none, none, false⟩ : RetryOptions Nat) (fun d n => d * n) 0
        [⟨([] : List Nat), some 7⟩, ⟨[], some 7⟩, ⟨[], some 7⟩]).emitted = [] ∧
    (runSeq (⟨100, 2, 5, none, none, false⟩ : RetryOptions Nat) (fun d n => d * n) 0
        [⟨([] : List Nat), some 7⟩, ⟨[], some 7⟩, ⟨[], some 7⟩]).result
        = some (some 7) := by
  refine ⟨rfl, rfl, rfl⟩

/-- Claim C8 amended: when `resetDelay > 0`, `debounceRetryCount()` is
executed exactly once per retry, at the moment the backoff timer fires
and immediately before the producer is resubscribed (or the wrapped
function re-invoked), regardless of whether the new attempt emits
values, succeeds or fails, and never in response to emitted values; when
`resetDelay ≤ 0` it is never executed at all. -/
theorem claimC8_amended {α ε : Type} (cfg : RetryOptions ε) (b : Nat → Nat → Nat)
    (e : ε) (a : α) (hw : wantRetry cfg e = true)
    (j : Nat) (hj : j ≤ cfg.totalRetry) (rest : List (Outcome α ε))
    (vss : List (List α)) (hlen : vss.length = j) (vlast : List α)
    (restS : List (SeqAttempt α ε)) :
    (0 < cfg.resetDelay →
      (runSeq cfg b 0 ((vss.map fun vs => ⟨vs, some e⟩) ++ ⟨vlast, none⟩ :: restS)).touches
          = j ∧
      (runFunc cfg b 0 (List.replicate j (.failure e) ++ .success a :: rest)).touches = j) ∧
    (cfg.resetDelay ≤ 0 →
      (runSeq cfg b 0 ((vss.map fun vs => ⟨vs, some e⟩) ++ ⟨vlast, none⟩ :: restS)).touches
          = 0 ∧
      (runFunc cfg b 0 (List.replicate j (.failure e) ++ .success a :: rest)).touches = 0) := by
  rw [runFunc_failThenSuccess cfg b e a hw j 0 rest (by omega),
      runSeq_failThenComplete cfg b e hw j 0 vss vlast restS hlen (by omega)]
  constructor
  · intro hRD
    simp [hRD]
  · intro hRD
    have hneg : ¬ (0 : Int) < cfg.resetDelay := by omega
    simp [hneg]

/-- Concrete instance of `claimC8_amended`: two retries touch the
debounce twice when `resetDelay = 5` — whatever the attempts emitted —
and never when `resetDelay = 0`. -/
theorem claimC8_amended_witness :
    ((runSeq (⟨100, 2, 5, none, none, false⟩ : RetryOptions Nat) (fun d n => d * n) 0
        (([[], [4]].map fun vs => ⟨vs, some 7⟩) ++ ⟨[9], none⟩ :: [])).touches = 2 ∧
      (runFunc (⟨100, 2, 5, none, none, false⟩ : RetryOptions Nat) (fun d n => d * n) 0
        (List.replicate 2 (.failure 7) ++ .success 1 :: [])).touches = 2) ∧
    ((runSeq (⟨100, 2, 0, none, none, false⟩ : RetryOptions Nat) (fun d n => d * n) 0
        (([[], [4]].map fun vs => ⟨vs, some 7⟩) ++ ⟨[9], none⟩ :: [])).touches = 0 ∧
      (runFunc (⟨100, 2, 0, none, none, false⟩ : RetryOptions Nat) (fun d n => d * n) 0
        (List.replicate 2 (.failure 7) ++ .success 1 :: [])).touches = 0) :=
  ⟨(claimC8_amended (⟨100, 2, 5, none, none, false⟩ : RetryOptions Nat) (fun d n => d * n)
      7 1 rfl 2 (by decide) [] [[], [4]] rfl [9] []).1 (by decide),
   (claimC8_amended (⟨100, 2, 0, none, none, false⟩ : RetryOptions Nat) (fun d n => d * n)
      7 1 rfl 2 (by decide) [] [[], [4]] rfl [9] []).2 (by decide)⟩

/-- Claim C10: the two give-up causes treat the counter differently.
Exhausted budget: `retryCount++` runs, so `errorSelector` receives
`totalRetry + 1` — one more than the retries performed — and the counter
ends incremented.  `shouldRetry` returning false: the short-circuit
skips `retryCount++`, so `errorSelector` receives exactly the number of
retries already performed and the counter is unchanged. -/
theorem claimC10 {α ε : Type} (cfg : RetryOptions ε) (b : Nat → Nat → Nat)
    (e eBad : ε) (f : ε → Nat → ε) (hsel : cfg.errorSelector = some f)
    (hw : wantRetry cfg e = true) (hb : wantRetry cfg eBad = false)
    (j : Nat) (hj : j ≤ cfg.totalRetry) (rest : List (Outcome α ε)) :
    (runFunc cfg b 0 (List.replicate (cfg.totalRetry + 1) (.failure e) ++ rest)).result
        = some (.failure (f e (cfg.totalRetry + 1))) ∧
    (runFunc cfg b 0 (List.replicate (cfg.totalRetry + 1) (.failure e) ++ rest)).delays.length
        = cfg.totalRetry ∧
    (runFunc cfg b 0 (List.replicate (cfg.totalRetry + 1) (.failure e) ++ rest)).finalCount
        = cfg.totalRetry + 1 ∧
    (runFunc cfg b 0 (List.replicate j (.failure e) ++ .failure eBad :: rest)).result
        = some (.failure (f eBad j)) ∧
    (runFunc cfg b 0 (List.replicate j (.failure e) ++ .failure eBad :: rest)).delays.length
        = j ∧
    (runFunc cfg b 0 (List.replicate j (.failure e) ++ .failure eBad :: rest)).finalCount
        = j := by
  have h3 := runFunc_allFail cfg b e hw cfg.totalRetry 0 rest (by omega)
  have h1 := runFunc_failPrefix cfg b e hw j 0 (.failure eBad :: rest) (by omega)
  have h2 := runFunc_notWanted cfg b (0 + j) eBad rest hb
  refine ⟨?_, ?_, ?_, ?_, ?_, ?_⟩
  · rw [h3]
    simp [applySelector, hsel]
  · rw [h3]
    simp
  · rw [h3]
  · rw [h1, h2]
    simp [applySelector, hsel]
  · rw [h1, h2]
    simp
  · rw [h1, h2]
    simp

/-- Concrete instance of `claimC10`: selector encodes the count it
received; exhaustion after 2 retries reports count 3, rejection after 2
retries reports count 2, with final counters 3 and 2. -/
theorem claimC10_witness :
    (runFunc (⟨100, 2, 0, some (fun x => decide (x < 10)),
        some (fun x n => x * 1000 + n), false⟩ : RetryOptions Nat)
        (fun d n => d * n) 0
        (List.replicate 3 (.failure 7) ++ ([] : List (Outcome Nat Nat)))).result
        = some (.failure 7003) ∧
    (runFunc (⟨100, 2, 0, some (fun x => decide (x < 10)),
        some (fun x n => x * 1000 + n), false⟩ : RetryOptions Nat)
        (fun d n => d * n) 0
        (List.replicate 3 (.failure 7) ++ ([] : List (Outcome Nat Nat)))).delays.length
        = 2 ∧
    (runFunc (⟨100, 2, 0, some (fun x => decide (x < 10)),
        some (fun x n => x * 1000 + n), false⟩ : RetryOptions Nat)
        (fun d n => d * n) 0
        (List.replicate 3 (.failure 7) ++ ([] : List (Outcome Nat Nat)))).finalCount
        = 3 ∧
    (runFunc (⟨100, 2, 0, some (fun x => decide (x < 10)),
        some (fun x n => x * 1000 + n), false⟩ : RetryOptions Nat)
        (fun d n => d * n) 0
        (List.replicate 2 (.failure 7) ++ .failure 99 :: ([] : List (Outcome Nat Nat)))).result
        = some (.failure 99002) ∧
    (runFunc (⟨100, 2, 0, some (fun x => decide (x < 10)),
        some (fun x n => x * 1000 + n), false⟩ : RetryOptions Nat)
        (fun d n => d * n) 0
        (List.replicate 2 (.failure 7) ++ .failure 99 :: ([] : List (Outcome Nat Nat)))).delays.length
        = 2 ∧
    (runFunc (⟨100, 2, 0, some (fun x => decide (x < 10)),
        some (fun x n => x * 1000 + n), false⟩ : RetryOptions Nat)
        (fun d n => d * n) 0
        (List.replicate 2 (.failure 7) ++ .failure 99 :: ([] : List (Outcome Nat Nat)))).finalCount
        = 2 :=
  claimC10 (⟨100, 2, 0, some (fun x => decide (x < 10)),
      some (fun x n => x * 1000 + n), false⟩ : RetryOptions Nat)
    (fun d n => d * n) 7 99 (fun x n => x * 1000 + n) rfl rfl rfl 2 (by decide) []
